import Mathlib

/-!
Verification development for the `env` package: a dotenv loader and a
reflective configuration populator.

The Go source is shallowly embedded: each Go function of the richer variant
(`Load`, `parseLine`, `camelToSnake`, `getFieldValue`, `setFieldValue`,
`parseTo`) becomes an executable Lean definition.  Process state (the
environment) is passed explicitly; `reflect` types/values are modelled by
dedicated inductives; Go standard-library collaborators (`strconv`,
`time.ParseDuration`, `os.Setenv` key validation, `bufio` scanning) are
modelled from their documented/observable behaviour, with each model's doc
comment naming the function it stands for and any abstraction taken.

Strings are treated at rune (Char) level.  The only byte-level operations in
the source are `strings.Index(line, "=")` with the ensuing slicing, and the
`camelToSnake` byte-index test `i != 0`; both are extensionally equal to the
rune-level account ('=' is a single-byte rune that cannot occur inside a
multi-byte UTF-8 sequence, and only zero/non-zero of the index is used).
-/

/-- ASCII model of `unicode.IsUpper` (field identifiers in this repository
are ASCII). -/
def isUpperA (c : Char) : Bool :=
  'A'.toNat ≤ c.toNat && c.toNat ≤ 'Z'.toNat

/-- ASCII model of `strings.ToUpper` on a single character. -/
def toUpperA (c : Char) : Char :=
  if 'a'.toNat ≤ c.toNat && c.toNat ≤ 'z'.toNat then Char.ofNat (c.toNat - 32) else c

/-- Go's `lower` byte helper (`c | 0x20`), restricted to the letter range
where the source consults it: on an ASCII uppercase letter it yields the
lowercase letter, elsewhere the character is returned unchanged.  All uses
in the source compare the result against a lowercase letter, for which this
model is exact. -/
def lowerCh (c : Char) : Char :=
  if 'A'.toNat ≤ c.toNat && c.toNat ≤ 'Z'.toNat then Char.ofNat (c.toNat + 32) else c

/-- `'0' ≤ c && c ≤ '9'` as the Go sources write it. -/
def isDigit09 (c : Char) : Bool :=
  '0'.toNat ≤ c.toNat && c.toNat ≤ '9'.toNat

/-- Index of the first `'='`, rune-level model of `strings.Index(line, "=")`
(`none` models the return value `-1`). -/
def idxOfEq : List Char → Option Nat
  | [] => none
  | c :: cs => if c = '=' then some 0 else (idxOfEq cs).map (· + 1)

/-- `parseLine` from the source: split at the first `'='`; an absent
delimiter (`i = -1`) or a delimiter at position `0` (`i <= 0`) yields
`("", "")`; otherwise the part before it is the key and everything after it
(possibly empty, possibly containing further `'='`) is the value. -/
def parseLine (line : String) : String × String :=
  match idxOfEq line.data with
  | none => ("", "")
  | some i =>
    if i = 0 then ("", "")
    else (String.mk (line.data.take i), String.mk (line.data.drop (i + 1)))

/-- The scan loop of `camelToSnake`: `parts` accumulation.  `i` is the
index of the current character (the source only ever tests `i != 0`);
`acc` is the current segment, reversed. -/
def splitUpper (i : Nat) (acc : List Char) : List Char → List (List Char)
  | [] => [acc.reverse]
  | c :: cs =>
    if isUpperA c && decide (i ≠ 0) then
      acc.reverse :: splitUpper (i + 1) [c] cs
    else
      splitUpper (i + 1) (c :: acc) cs

/-- `strings.Join(parts, "_")` at character-list level. -/
def joinParts : List (List Char) → List Char
  | [] => []
  | [p] => p
  | p :: ps => p ++ '_' :: joinParts ps

/-- `camelToSnake` body at character-list level: split before every
uppercase letter at non-zero index, uppercase every part, join with `'_'`. -/
def camelToSnakeL (cs : List Char) : List Char :=
  joinParts ((splitUpper 0 [] cs).map (List.map toUpperA))

/-- `camelToSnake` from the source. -/
def camelToSnake (s : String) : String :=
  String.mk (camelToSnakeL s.data)

/-- The process environment: a mutable string-keyed store, passed
explicitly. -/
def Env : Type := String → Option String

/-- The empty process environment. -/
def emptyEnv : Env := fun _ => none

/-- `os.LookupEnv`: `syscall.Getenv` reports the empty key as absent. -/
def lookupEnv (env : Env) (key : String) : Option String :=
  if key = "" then none else env key

/-- `os.Setenv` on success: point update of the store. -/
def envSet (env : Env) (key val : String) : Env :=
  fun k => if k = key then some val else env k

/-- Whether `os.Setenv key val` succeeds: `syscall.Setenv` rejects an empty
key, a key containing `'='` or NUL, and a value containing NUL. -/
def setenvOk (key val : String) : Bool :=
  key ≠ "" && !(key.data.contains '=') && !(key.data.contains (Char.ofNat 0))
    && !(val.data.contains (Char.ofNat 0))

/-- The error values `Load`/`parseTo`/`setFieldValue` return, tagged by the
`fmt.Errorf` context string of the source; each constructor carries the data
interpolated into (or wrapped by) the message. -/
inductive GoErr where
  /-- `"opening dotenv file: %w"` -/
  | openErr (msg : String)
  /-- `"setting %s[%s]: %w"` -/
  | settingErr (key val : String)
  /-- `"reading env file: %w"` -/
  | readErr (msg : String)
  /-- `"no value for field: %s"` -/
  | noValue (field : String)
  /-- `"parsing duration: %w"` -/
  | parsingDuration (msg : String)
  /-- `"parsing integer: %w"` -/
  | parsingInteger (msg : String)
  /-- `"parsing unsigned integer: %w"` -/
  | parsingUnsigned (msg : String)
  /-- `"parsing float: %w"` -/
  | parsingFloat (msg : String)
  /-- `"parsing bool: %w"` -/
  | parsingBool (msg : String)
  /-- `"unsupported slice kind: %s"` -/
  | unsupportedSliceKind (kind : String)
  /-- `"unsupported field type: %s"` -/
  | unsupportedFieldType (name : String)
deriving DecidableEq

/-- The loop body of `Load`: scan lines, skip empty ones, parse the rest and
set the parsed pair, aborting with a wrapped error when `os.Setenv` fails. -/
def loadEnvLines : List String → Env → Env × Option GoErr
  | [], env => (env, none)
  | l :: ls, env =>
    if l = "" then loadEnvLines ls env
    else
      let kv := parseLine l
      if setenvOk kv.1 kv.2 then loadEnvLines ls (envSet env kv.1 kv.2)
      else (env, some (GoErr.settingErr kv.1 kv.2))

/-- Result of `os.Open`: the file's lines, or `fs.ErrNotExist`, or another
I/O error. -/
inductive OpenResult where
  | ok (lines : List String)
  | errNotExist
  | errOther (msg : String)

/-- The filesystem, as `Load` observes it: what `os.Open` yields per path. -/
def FileSys : Type := String → OpenResult

/-- `Load` from the source.

* A non-`ErrNotExist` open failure returns the wrapped `"opening dotenv
  file"` error.
* When `os.Open` fails with `ErrNotExist`, the source suppresses the error
  but keeps the returned nil `*os.File` handle and hands it to
  `bufio.NewScanner`.  The scanner's first `Read` on a nil `*os.File`
  returns `os.ErrInvalid` (message `"invalid argument"`), so no line is
  scanned, `buf.Err()` is that error, and `Load` returns it wrapped as
  `"reading env file: %w"`.
* On a successfully opened file the scan loop runs; scanning a finite,
  already-opened file is modelled as yielding no read error (`bufio`'s
  max-token-size limit is out of scope), so the loop's outcome is returned
  as is. -/
def LoadModel (fs : FileSys) (pth : String) (env : Env) : Env × Option GoErr :=
  match fs pth with
  | OpenResult.errOther msg => (env, some (GoErr.openErr msg))
  | OpenResult.errNotExist => (env, some (GoErr.readErr "invalid argument"))
  | OpenResult.ok lines => loadEnvLines lines env

/-- `strconv.Quote` / the `%q`-style quoting used inside `strconv` and
`time` error messages, for strings needing no escapes (every string this
development quotes is plain ASCII without quotes or control characters). -/
def quoteGo (s : String) : String := "\"" ++ s ++ "\""

/-- The two `strconv.NumError` causes. -/
inductive NumErrKind where
  | synt
  | range
deriving DecidableEq

/-- `strconv.NumError` message: `strconv.<Fn>: parsing <quoted>: <cause>`. -/
def numErrMsg (fn s : String) : NumErrKind → String
  | NumErrKind.synt => "strconv." ++ fn ++ ": parsing " ++ quoteGo s ++ ": invalid syntax"
  | NumErrKind.range => "strconv." ++ fn ++ ": parsing " ++ quoteGo s ++ ": value out of range"

/-- The digit loop of `strconv.ParseUint`: `'_'` is skipped when base-0
parsing allowed underscores (placement is validated afterwards by
`underscoreOK`); a non-digit or a digit `≥ base` is a syntax error; a value
exceeding `maxVal` is a range error.  Returns the value and whether an
underscore was seen. -/
def uintLoop (base maxVal : Nat) : List Char → Nat → Bool → Except NumErrKind (Nat × Bool)
  | [], n, und => Except.ok (n, und)
  | c :: cs, n, und =>
    if c = '_' then uintLoop base maxVal cs n true
    else
      let d : Option Nat :=
        if isDigit09 c then some (c.toNat - '0'.toNat)
        else if 'a'.toNat ≤ (lowerCh c).toNat && (lowerCh c).toNat ≤ 'z'.toNat then
          some ((lowerCh c).toNat - 'a'.toNat + 10)
        else none
      match d with
      | none => Except.error NumErrKind.synt
      | some d =>
        if base ≤ d then Except.error NumErrKind.synt
        else
          let n1 := n * base + d
          if maxVal < n1 then Except.error NumErrKind.range
          else uintLoop base maxVal cs n1 und

/-- The scanning body of `strconv`'s `underscoreOK`: `saw` is the class of
the previous character (`'^'` start, `'0'` digit or base prefix, `'_'`
underscore, `'!'` other). -/
def underBody (hex : Bool) : List Char → Char → Bool
  | [], saw => saw ≠ '_'
  | c :: cs, saw =>
    if isDigit09 c || (hex && ('a'.toNat ≤ (lowerCh c).toNat && (lowerCh c).toNat ≤ 'f'.toNat)) then
      underBody hex cs '0'
    else if c = '_' then
      if saw ≠ '0' then false else underBody hex cs '_'
    else if saw = '_' then false
    else underBody hex cs '!'

/-- `strconv`'s `underscoreOK`: underscores may separate digits (or follow a
base prefix) only. -/
def underscoreOK (s : List Char) : Bool :=
  let s1 := match s with
    | c :: rest => if c = '-' ∨ c = '+' then rest else s
    | [] => s
  match s1 with
  | '0' :: c2 :: rest =>
    if lowerCh c2 = 'b' ∨ lowerCh c2 = 'o' ∨ lowerCh c2 = 'x' then
      underBody (lowerCh c2 = 'x') rest '0'
    else underBody false s1 '^'
  | _ => underBody false s1 '^'

/-- Core of `strconv.ParseUint(s, 0, bitSize)` (the source always passes
base 0): empty input is a syntax error; the base is taken from the
`0b`/`0o`/`0x`/leading-`0` prefix, else 10; the digit loop runs; underscore
placement is validated when one was consumed. -/
def parseUintCore (cs : List Char) (bitSize : Nat) : Except NumErrKind Nat :=
  if cs = [] then Except.error NumErrKind.synt
  else
    let bb : Nat × List Char :=
      match cs with
      | '0' :: c2 :: rest =>
        if lowerCh c2 = 'b' ∧ rest ≠ [] then (2, rest)
        else if lowerCh c2 = 'o' ∧ rest ≠ [] then (8, rest)
        else if lowerCh c2 = 'x' ∧ rest ≠ [] then (16, rest)
        else (8, c2 :: rest)
      | '0' :: [] => (8, ([] : List Char))
      | _ => (10, cs)
    let bs := if bitSize = 0 then 64 else bitSize
    let maxVal := 2 ^ bs - 1
    match uintLoop bb.1 maxVal bb.2 0 false with
    | Except.error e => Except.error e
    | Except.ok (n, und) =>
      if und && !underscoreOK cs then Except.error NumErrKind.synt
      else Except.ok n

/-- `strconv.ParseUint(s, 0, bitSize)` with its error message. -/
def parseUintGo (s : String) (bitSize : Nat) : Except String Nat :=
  match parseUintCore s.data bitSize with
  | Except.error e => Except.error (numErrMsg "ParseUint" s e)
  | Except.ok n => Except.ok n

/-- `strconv.ParseInt(s, 0, bitSize)`: empty input is a syntax error; an
optional sign is stripped; the rest goes through `ParseUint`, whose syntax
errors are relabelled to `ParseInt` over the full input; the unsigned value
is checked against the signed cutoff `2^(bitSize-1)` (range errors from
`ParseUint` saturate at `maxVal ≥ cutoff` and hence also fail the cutoff
check, as in the source). -/
def parseIntGo (s : String) (bitSize : Nat) : Except String Int :=
  if s.data = [] then Except.error (numErrMsg "ParseInt" s NumErrKind.synt)
  else
    let nb : Bool × List Char :=
      match s.data with
      | '+' :: rest => (false, rest)
      | '-' :: rest => (true, rest)
      | cs => (false, cs)
    match parseUintCore nb.2 bitSize with
    | Except.error NumErrKind.synt => Except.error (numErrMsg "ParseInt" s NumErrKind.synt)
    | Except.error NumErrKind.range => Except.error (numErrMsg "ParseInt" s NumErrKind.range)
    | Except.ok un =>
      let bs := if bitSize = 0 then 64 else bitSize
      let cutoff := 2 ^ (bs - 1)
      if !nb.1 && cutoff ≤ un then Except.error (numErrMsg "ParseInt" s NumErrKind.range)
      else if nb.1 && cutoff < un then Except.error (numErrMsg "ParseInt" s NumErrKind.range)
      else Except.ok (if nb.1 then -(un : Int) else (un : Int))

/-- `strconv.ParseBool`: the exact twelve accepted tokens. -/
def parseBoolGo (s : String) : Except String Bool :=
  if s = "1" ∨ s = "t" ∨ s = "T" ∨ s = "true" ∨ s = "TRUE" ∨ s = "True" then Except.ok true
  else if s = "0" ∨ s = "f" ∨ s = "F" ∨ s = "false" ∨ s = "FALSE" ∨ s = "False" then Except.ok false
  else Except.error (numErrMsg "ParseBool" s NumErrKind.synt)

/-- Consume leading digits (hex digits when `hex`), skipping `'_'`;
returns the count of real digits consumed and the rest.  Scanning helper
for the `strconv.ParseFloat` grammar. -/
def takeDigits (hex : Bool) : List Char → Nat → Nat × List Char
  | [], n => (n, [])
  | c :: cs, n =>
    if isDigit09 c || (hex && ('a'.toNat ≤ (lowerCh c).toNat && (lowerCh c).toNat ≤ 'f'.toNat)) then
      takeDigits hex cs (n + 1)
    else if c = '_' then takeDigits hex cs n
    else (n, c :: cs)

/-- Decimal mantissa-and-exponent acceptance of `strconv.ParseFloat`
(after the optional sign): digits with at most one `'.'`, at least one
digit, optional `e`/`E` exponent with optional sign and at least one
digit. -/
def decFloatOK (cs : List Char) : Bool :=
  let p1 := takeDigits false cs 0
  let p2 : Nat × List Char :=
    match p1.2 with
    | '.' :: rest =>
      let q := takeDigits false rest 0
      (p1.1 + q.1, q.2)
    | _ => p1
  if p2.1 = 0 then false
  else
    match p2.2 with
    | [] => true
    | e :: rest =>
      if lowerCh e = 'e' then
        let rest2 := match rest with
          | c :: t => if c = '+' ∨ c = '-' then t else rest
          | [] => rest
        let q := takeDigits false rest2 0
        decide (0 < q.1) && decide (q.2 = [])
      else false

/-- Hexadecimal mantissa acceptance of `strconv.ParseFloat` (after
`0x`/`0X`): hex digits with at most one `'.'`, at least one digit, then a
mandatory `p`/`P` binary exponent with optional sign and at least one
decimal digit. -/
def hexFloatOK (cs : List Char) : Bool :=
  let p1 := takeDigits true cs 0
  let p2 : Nat × List Char :=
    match p1.2 with
    | '.' :: rest =>
      let q := takeDigits true rest 0
      (p1.1 + q.1, q.2)
    | _ => p1
  if p2.1 = 0 then false
  else
    match p2.2 with
    | [] => false
    | p :: rest =>
      if lowerCh p = 'p' then
        let rest2 := match rest with
          | c :: t => if c = '+' ∨ c = '-' then t else rest
          | [] => rest
        let q := takeDigits false rest2 0
        decide (0 < q.1) && decide (q.2 = [])
      else false

/-- The special words `strconv.ParseFloat` accepts: `inf`/`infinity` with
optional sign, `nan` without one, case-insensitively. -/
def floatSpecialOK (cs : List Char) : Bool :=
  let l := cs.map lowerCh
  let body := match l with
    | c :: rest => if c = '+' ∨ c = '-' then rest else l
    | [] => l
  body = ['i', 'n', 'f'] ∨ body = ['i', 'n', 'f', 'i', 'n', 'i', 't', 'y'] ∨
    l = ['n', 'a', 'n']

/-- `strconv.ParseFloat(s, 64)` at syntax level: special words, or an
optional sign followed by a decimal or `0x` hexadecimal float literal with
valid underscore placement.  The IEEE-754 value itself is abstracted: an
accepted literal is returned verbatim (no claim of this development depends
on a float's numeric value), and exponent-magnitude range errors are not
modelled. -/
def parseFloatGo (s : String) : Except String String :=
  let cs := s.data
  if floatSpecialOK cs then Except.ok s
  else
    let body := match cs with
      | c :: rest => if c = '+' ∨ c = '-' then rest else cs
      | [] => cs
    let bodyOK :=
      match body with
      | '0' :: x :: rest => if lowerCh x = 'x' then hexFloatOK rest else decFloatOK body
      | _ => decFloatOK body
    if decide (body ≠ []) && bodyOK && underscoreOK cs then Except.ok s
    else Except.error (numErrMsg "ParseFloat" s NumErrKind.synt)

/-- `time`'s `leadingInt`: consume leading decimal digits into `x`,
erroring out (`Except.error ()`) when `x` would pass `2^63`. -/
def leadingInt : List Char → Nat → Except Unit (Nat × List Char)
  | [], x => Except.ok (x, [])
  | c :: cs, x =>
    if isDigit09 c then
      if 2 ^ 63 / 10 < x then Except.error ()
      else
        let x1 := x * 10 + (c.toNat - '0'.toNat)
        if 2 ^ 63 < x1 then Except.error ()
        else leadingInt cs x1
    else Except.ok (x, c :: cs)

/-- `time`'s `leadingFraction`: consume fraction digits, tracking the
scale `10^k` of digits actually accumulated; accumulation stops silently
on overflow while consumption continues. -/
def leadingFraction : List Char → Nat → Nat → Bool → Nat × Nat × List Char
  | [], x, scale, _ => (x, scale, [])
  | c :: cs, x, scale, ovf =>
    if isDigit09 c then
      if ovf then leadingFraction cs x scale true
      else if (2 ^ 63 - 1) / 10 < x then leadingFraction cs x scale true
      else
        let y := x * 10 + (c.toNat - '0'.toNat)
        if 2 ^ 63 < y then leadingFraction cs x scale true
        else leadingFraction cs y (scale * 10) false
    else (x, scale, c :: cs)

/-- Length of the unit token: characters up to the next `'.'` or digit. -/
def countUnit : List Char → Nat
  | [] => 0
  | c :: cs => if c = '.' ∨ isDigit09 c then 0 else countUnit cs + 1

/-- `time`'s `unitMap`: nanoseconds per unit token. -/
def unitLookup : List Char → Option Nat
  | ['n', 's'] => some 1
  | ['u', 's'] => some 1000
  | ['µ', 's'] => some 1000
  | ['μ', 's'] => some 1000
  | ['m', 's'] => some 1000000
  | ['s'] => some 1000000000
  | ['m'] => some 60000000000
  | ['h'] => some 3600000000000
  | _ => none

/-- The `for s != ""` loop of `time.ParseDuration`: each iteration consumes
a number (integer part, optional fraction), then a unit token, accumulating
nanoseconds with the source's overflow checks.  Each iteration consumes at
least the unit character, so `fuel` (called with `length + 1`) never runs
out; the fuel-exhaustion arm mirrors the invalid-duration error and is
unreachable on those calls.  The fractional contribution `f*(unit/scale)`
is computed here in exact integer arithmetic where the source rounds
through `float64`; no claim exercises fractional durations. -/
def durLoop (orig : String) : Nat → List Char → Nat → Except String Nat
  | 0, _, _ => Except.error ("time: invalid duration " ++ quoteGo orig)
  | fuel + 1, cs, d =>
    match cs with
    | [] => Except.ok d
    | c :: _ =>
      if !(c = '.' || isDigit09 c) then
        Except.error ("time: invalid duration " ++ quoteGo orig)
      else
        match leadingInt cs 0 with
        | Except.error _ => Except.error ("time: invalid duration " ++ quoteGo orig)
        | Except.ok (v, s1) =>
          let pre : Bool := s1.length != cs.length
          -- `(f, scale, s2, post)` of the source's fraction step
          let fr : Nat × Nat × List Char × Bool :=
            match s1 with
            | '.' :: rest =>
              let q := leadingFraction rest 0 1 false
              (q.1, q.2.1, q.2.2, rest.length != q.2.2.length)
            | _ => (0, 1, s1, false)
          if !pre && !fr.2.2.2 then
            Except.error ("time: invalid duration " ++ quoteGo orig)
          else
            let i := countUnit fr.2.2.1
            if i = 0 then
              Except.error ("time: missing unit in duration " ++ quoteGo orig)
            else
              let u := fr.2.2.1.take i
              let s3 := fr.2.2.1.drop i
              match unitLookup u with
              | none =>
                Except.error ("time: unknown unit " ++ quoteGo (String.mk u)
                  ++ " in duration " ++ quoteGo orig)
              | some unit =>
                if 2 ^ 63 / unit < v then
                  Except.error ("time: invalid duration " ++ quoteGo orig)
                else
                  let v2 := if 0 < fr.1 then v * unit + fr.1 * unit / fr.2.1 else v * unit
                  if 0 < fr.1 ∧ 2 ^ 63 < v2 then
                    Except.error ("time: invalid duration " ++ quoteGo orig)
                  else if 2 ^ 63 < d + v2 then
                    Except.error ("time: invalid duration " ++ quoteGo orig)
                  else durLoop orig fuel s3 (d + v2)

/-- `time.ParseDuration`: optional sign, special case `"0"`, then the
number/unit loop; the result is in nanoseconds. -/
def parseDurationGo (s : String) : Except String Int :=
  let nb : Bool × List Char :=
    match s.data with
    | c :: rest => if c = '-' ∨ c = '+' then (c = '-', rest) else (false, s.data)
    | [] => (false, [])
  if nb.2 = ['0'] then Except.ok 0
  else if nb.2 = [] then Except.error ("time: invalid duration " ++ quoteGo s)
  else
    match durLoop s (nb.2.length + 1) nb.2 0 with
    | Except.error e => Except.error e
    | Except.ok d =>
      if nb.1 then Except.ok (-(d : Int))
      else if 2 ^ 63 - 1 < d then Except.error ("time: invalid duration " ++ quoteGo s)
      else Except.ok (d : Int)

/-- `reflect.Kind`, restricted to the kinds the source can meet; `kOther`
stands for every remaining kind (map, pointer, chan, ...). -/
inductive Kind where
  | kInt | kInt8 | kInt16 | kInt32 | kInt64
  | kUint | kUint8 | kUint16 | kUint32 | kUint64
  | kFloat32 | kFloat64
  | kBool | kString | kSlice | kStruct | kOther
deriving DecidableEq

/-- `reflect.Kind.String()` for the kinds above (used by the
`"unsupported slice kind: %s"` message). -/
def kindName : Kind → String
  | Kind.kInt => "int"
  | Kind.kInt8 => "int8"
  | Kind.kInt16 => "int16"
  | Kind.kInt32 => "int32"
  | Kind.kInt64 => "int64"
  | Kind.kUint => "uint"
  | Kind.kUint8 => "uint8"
  | Kind.kUint16 => "uint16"
  | Kind.kUint32 => "uint32"
  | Kind.kUint64 => "uint64"
  | Kind.kFloat32 => "float32"
  | Kind.kFloat64 => "float64"
  | Kind.kBool => "bool"
  | Kind.kString => "string"
  | Kind.kSlice => "slice"
  | Kind.kStruct => "struct"
  | Kind.kOther => "other"

mutual
/-- A Go type as `setFieldValue`/`parseTo` observe it through `reflect`:
`tDuration` is `time.Duration` (a named type whose underlying kind is
`int64`); `tOther` stands for any unsupported type, carrying
`reflect.Type.Name()`. -/
inductive GoType where
  | tDuration
  | tInt | tInt8 | tInt16 | tInt32 | tInt64
  | tUint | tUint8 | tUint16 | tUint32 | tUint64
  | tFloat32 | tFloat64
  | tBool
  | tString
  | tSlice (elem : GoType)
  | tStruct (fields : FieldList)
  | tOther (name : String)

/-- The field list of a struct type, in declaration order. -/
inductive FieldList where
  | nil
  | cons (f : GoField) (fs : FieldList)

/-- One struct field: identifier, `env` tag, `default` tag (empty string
models an absent tag, as `reflect.StructTag.Get` reports it), and type. -/
inductive GoField where
  | mk (name envTag defTag : String) (ty : GoType)
end

/-- `reflect.Type.Kind()`.  `time.Duration`'s kind is `reflect.Int64`: this
single fact is what makes the first `switch` case of `setFieldValue`
capture every `int64`-kinded field. -/
def GoType.kind : GoType → Kind
  | GoType.tDuration => Kind.kInt64
  | GoType.tInt => Kind.kInt
  | GoType.tInt8 => Kind.kInt8
  | GoType.tInt16 => Kind.kInt16
  | GoType.tInt32 => Kind.kInt32
  | GoType.tInt64 => Kind.kInt64
  | GoType.tUint => Kind.kUint
  | GoType.tUint8 => Kind.kUint8
  | GoType.tUint16 => Kind.kUint16
  | GoType.tUint32 => Kind.kUint32
  | GoType.tUint64 => Kind.kUint64
  | GoType.tFloat32 => Kind.kFloat32
  | GoType.tFloat64 => Kind.kFloat64
  | GoType.tBool => Kind.kBool
  | GoType.tString => Kind.kString
  | GoType.tSlice _ => Kind.kSlice
  | GoType.tStruct _ => Kind.kStruct
  | GoType.tOther _ => Kind.kOther

/-- `reflect.TypeOf(time.Duration(0)).Kind()`, the guard of the first
`switch` case of `setFieldValue`. -/
def durationKind : Kind := Kind.kInt64

/-- `reflect.Type.Bits()` on a 64-bit platform (`int`/`uint` are 64 bits
wide there; the repository's own tests assume it). -/
def GoType.bits : GoType → Nat
  | GoType.tDuration => 64
  | GoType.tInt => 64
  | GoType.tInt8 => 8
  | GoType.tInt16 => 16
  | GoType.tInt32 => 32
  | GoType.tInt64 => 64
  | GoType.tUint => 64
  | GoType.tUint8 => 8
  | GoType.tUint16 => 16
  | GoType.tUint32 => 32
  | GoType.tUint64 => 64
  | GoType.tFloat32 => 32
  | GoType.tFloat64 => 64
  | _ => 0

/-- `reflect.Type.Elem().Kind()` for slice types (`kOther` elsewhere;
`setFieldValue` consults it only under the `reflect.Slice` case). -/
def GoType.elemKind : GoType → Kind
  | GoType.tSlice e => e.kind
  | _ => Kind.kOther

/-- `reflect.Type.Name()` (`tOther` carries it; the supported types never
reach the message that uses it). -/
def GoType.typeName : GoType → String
  | GoType.tOther n => n
  | _ => ""

/-- Whether the type's kind is `reflect.Struct` (the recursion guard of
`parseTo`). -/
def isStructTy : GoType → Bool
  | GoType.tStruct _ => true
  | _ => false

/-- A Go value held by a struct field after population.  `vFloat` keeps the
accepted literal (float numerics are abstracted away); `vDuration` is in
nanoseconds. -/
inductive GoValue where
  | vDuration (ns : Int)
  | vInt (n : Int)
  | vUint (n : Nat)
  | vFloat (lit : String)
  | vBool (b : Bool)
  | vString (s : String)
  | vSlice (elems : List String)
  | vStruct (fields : List GoValue)

/-- `strings.Split(val, ",")`: comma-separated pieces; the empty string
yields one empty piece.  `acc` holds the current piece, reversed. -/
def splitComma : List Char → List Char → List String
  | [], acc => [String.mk acc.reverse]
  | c :: cs, acc =>
    if c = ',' then String.mk acc.reverse :: splitComma cs []
    else splitComma cs (c :: acc)

/-- `case reflect.Int, reflect.Int8, reflect.Int16, reflect.Int32,
reflect.Int64` — the signed-integer case list of `setFieldValue`'s switch.
Its `kInt64` entry is unreachable there: the duration case, tested first,
already matches that kind. -/
def isIntKind : Kind → Bool
  | Kind.kInt | Kind.kInt8 | Kind.kInt16 | Kind.kInt32 | Kind.kInt64 => true
  | _ => false

/-- `case reflect.Uint, ..., reflect.Uint64` of `setFieldValue`'s switch. -/
def isUintKind : Kind → Bool
  | Kind.kUint | Kind.kUint8 | Kind.kUint16 | Kind.kUint32 | Kind.kUint64 => true
  | _ => false

/-- `case reflect.Float32, reflect.Float64` of `setFieldValue`'s switch. -/
def isFloatKind : Kind → Bool
  | Kind.kFloat32 | Kind.kFloat64 => true
  | _ => false

/-- `setFieldValue` from the source: a `switch fieldType.Kind()` whose
cases are tried in declaration order.  On success the parsed value is the
field's new content; on failure the field is untouched and the wrapped,
conversion-kind-typed error is returned. -/
def setFieldValue (ty : GoType) (val : String) : Except GoErr GoValue :=
  if ty.kind = durationKind then
    match parseDurationGo val with
    | Except.error msg => Except.error (GoErr.parsingDuration msg)
    | Except.ok d => Except.ok (GoValue.vDuration d)
  else if isIntKind ty.kind then
    match parseIntGo val ty.bits with
    | Except.error msg => Except.error (GoErr.parsingInteger msg)
    | Except.ok n => Except.ok (GoValue.vInt n)
  else if isUintKind ty.kind then
    match parseUintGo val ty.bits with
    | Except.error msg => Except.error (GoErr.parsingUnsigned msg)
    | Except.ok n => Except.ok (GoValue.vUint n)
  else if isFloatKind ty.kind then
    match parseFloatGo val with
    | Except.error msg => Except.error (GoErr.parsingFloat msg)
    | Except.ok lit => Except.ok (GoValue.vFloat lit)
  else if ty.kind = Kind.kBool then
    match parseBoolGo val with
    | Except.error msg => Except.error (GoErr.parsingBool msg)
    | Except.ok b => Except.ok (GoValue.vBool b)
  else if ty.kind = Kind.kString then
    Except.ok (GoValue.vString val)
  else if ty.kind = Kind.kSlice then
    if ty.elemKind ≠ Kind.kString then
      Except.error (GoErr.unsupportedSliceKind (kindName ty.elemKind))
    else
      Except.ok (GoValue.vSlice (splitComma val.data []))
  else
    Except.error (GoErr.unsupportedFieldType ty.typeName)

/-- `getFieldValue` from the source: the `env`-tag name is looked up first
(an absent tag yields the empty tag name, which `os.LookupEnv` reports as
unset), then the snake-cased derived name, then the `default` tag value. -/
def getFieldValue (envTag defTag fieldName : String) (env : Env) : String :=
  match lookupEnv env envTag with
  | some val => val
  | none =>
    match lookupEnv env (camelToSnake fieldName) with
    | some val => val
    | none => defTag

mutual
/-- One iteration of `parseTo`'s field loop for field `f` holding value
`v`: a struct-kinded field recurses with the prefix extended by the field
identifier; a leaf field resolves its value, fails with the missing-value
error when the value is empty inside a nested invocation (`pfx ≠ ""`), and
otherwise converts.  Returns the field's (possibly partially) updated value
and the error that aborted the walk, if any.  A `vStruct`-mismatched value
for a struct field cannot arise from Go's type system and is returned
untouched. -/
def parseToField (f : GoField) (v : GoValue) (pfx : String) (env : Env) :
    GoValue × Option GoErr :=
  match f with
  | GoField.mk name _ _ (GoType.tStruct flds) =>
    match v with
    | GoValue.vStruct vs =>
      let r := parseToFields flds vs (pfx ++ name) env
      (GoValue.vStruct r.1, r.2)
    | w => (w, none)
  | GoField.mk name envTag defTag ty =>
    let val := getFieldValue envTag defTag (pfx ++ name) env
    if val = "" ∧ pfx ≠ "" then (v, some (GoErr.noValue name))
    else
      match setFieldValue ty val with
      | Except.error e => (v, some e)
      | Except.ok w => (w, none)

/-- `parseTo`'s `for` loop over the remaining fields and their current
values: the first failing field aborts the loop, keeping every earlier
field's new value and every later field's old value. -/
def parseToFields (flds : FieldList) (vs : List GoValue) (pfx : String) (env : Env) :
    List GoValue × Option GoErr :=
  match flds, vs with
  | FieldList.nil, vs => (vs, none)
  | FieldList.cons _ _, [] => ([], none)
  | FieldList.cons f fs, v :: vs =>
    let r := parseToField f v pfx env
    match r.2 with
    | some e => (r.1 :: vs, some e)
    | none =>
      let r2 := parseToFields fs vs pfx env
      (r.1 :: r2.1, r2.2)
end

/-- `parseTo dst ""` — the top-level entry: walk the record's fields with
the empty prefix. -/
def parseTo (flds : FieldList) (vs : List GoValue) (env : Env) :
    List GoValue × Option GoErr :=
  parseToFields flds vs "" env

/-- Concatenation of field lists (to speak about a record as "the fields
before a given field, the field, the fields after it"). -/
def FieldList.app : FieldList → FieldList → FieldList
  | FieldList.nil, gs => gs
  | FieldList.cons f fs, gs => FieldList.cons f (FieldList.app fs gs)

/-- Number of fields in a field list. -/
def flLength : FieldList → Nat
  | FieldList.nil => 0
  | FieldList.cons _ fs => flLength fs + 1

/-- Apply a list of key/value pairs to the environment in order (the net
effect of the successful `os.Setenv` calls of a load). -/
def applyPairs : List (String × String) → Env → Env
  | [], env => env
  | p :: ps, env => applyPairs ps (envSet env p.1 p.2)

/-- The key/value pairs a load applies: parsed pairs of the non-blank lines
up to (excluding) the first line whose pair `os.Setenv` rejects.  This list
depends only on the file's lines, not on the prior environment. -/
def lineUpdates : List String → List (String × String)
  | [] => []
  | l :: ls =>
    if l = "" then lineUpdates ls
    else
      let kv := parseLine l
      if setenvOk kv.1 kv.2 then kv :: lineUpdates ls else []

/-- The value of the last pair carrying the given key, if any. -/
def findLastPair : List (String × String) → String → Option String
  | [], _ => none
  | p :: ps, key =>
    match findLastPair ps key with
    | some w => some w
    | none => if key = p.1 then some p.2 else none

/-- Whether a walk outcome is specifically the `"parsing integer"`
conversion error. -/
def isIntegerParseErr : Option GoErr → Bool
  | some (GoErr.parsingInteger _) => true
  | _ => false

/-! ### Helper lemmas -/

/-- Unfolding of one iteration of the field loop. -/
theorem parseToFields_cons (f : GoField) (fs : FieldList) (v : GoValue) (vs : List GoValue)
    (pfx : String) (env : Env) :
    parseToFields (FieldList.cons f fs) (v :: vs) pfx env
      = match (parseToField f v pfx env).2 with
        | some e => ((parseToField f v pfx env).1 :: vs, some e)
        | none => ((parseToField f v pfx env).1 :: (parseToFields fs vs pfx env).1,
            (parseToFields fs vs pfx env).2) := by
  rw [parseToFields]

/-- A failing field aborts the loop at once: the rest is untouched. -/
theorem parseToFields_cons_err (f : GoField) (fs : FieldList) (v v' : GoValue)
    (vs : List GoValue) (pfx : String) (env : Env) (e : GoErr)
    (hf : parseToField f v pfx env = (v', some e)) :
    parseToFields (FieldList.cons f fs) (v :: vs) pfx env = (v' :: vs, some e) := by
  rw [parseToFields_cons, hf]

/-- A succeeding field contributes its new value and the loop continues. -/
theorem parseToFields_cons_ok (f : GoField) (fs : FieldList) (v v' : GoValue)
    (vs : List GoValue) (pfx : String) (env : Env)
    (hf : parseToField f v pfx env = (v', none)) :
    parseToFields (FieldList.cons f fs) (v :: vs) pfx env
      = (v' :: (parseToFields fs vs pfx env).1, (parseToFields fs vs pfx env).2) := by
  rw [parseToFields_cons, hf]

theorem take_len_append {α : Type} (a b : List α) : (a ++ b).take a.length = a := by
  induction a with
  | nil => rfl
  | cons c cs ih => simp [List.take, ih]

theorem drop_len_append {α : Type} (a b : List α) : (a ++ b).drop a.length = b := by
  induction a with
  | nil => rfl
  | cons c cs ih => simp [List.drop, ih]

theorem idxOfEq_of_not_mem (k : List Char) (h : ¬ ('=' ∈ k)) (v : List Char) :
    idxOfEq (k ++ '=' :: v) = some k.length := by
  induction k with
  | nil => rfl
  | cons c cs ih =>
    have hc : c ≠ '=' := by
      intro hc; exact h (hc ▸ List.mem_cons_self c cs)
    have hcs : ¬ ('=' ∈ cs) := fun hm => h (List.mem_cons_of_mem c hm)
    simp [idxOfEq, hc, ih hcs]

theorem idxOfEq_none (l : List Char) (h : ¬ ('=' ∈ l)) : idxOfEq l = none := by
  induction l with
  | nil => rfl
  | cons c cs ih =>
    have hc : c ≠ '=' := by
      intro hc; exact h (hc ▸ List.mem_cons_self c cs)
    have hcs : ¬ ('=' ∈ cs) := fun hm => h (List.mem_cons_of_mem c hm)
    simp [idxOfEq, hc, ih hcs]

/-! ### C7 — the Line Parser -/

/-- C7: for every input line, `parseLine` returns exactly the substring
before the first `'='` as key and everything after it (possibly empty,
possibly containing further `'='`) as value when the first `'='` exists at
a non-zero position (conjunct 1, with the line written as `k ++ "=" ++ v`
where `k` is `'='`-free and non-empty); and returns `("", "")` when the
line contains no `'='` (conjunct 2) or its first character is `'='`
(conjunct 3). -/
theorem c7_parseLine_spec (k v line : String) (rest : List Char) :
    (k ≠ "" → ¬ ('=' ∈ k.data) → parseLine (k ++ "=" ++ v) = (k, v)) ∧
    (¬ ('=' ∈ line.data) → parseLine line = ("", "")) ∧
    parseLine (String.mk ('=' :: rest)) = ("", "") := by
  refine ⟨?_, ?_, rfl⟩
  · intro hk hmem
    obtain ⟨kd⟩ := k
    obtain ⟨vd⟩ := v
    have hdata : (String.mk kd ++ "=" ++ String.mk vd).data = kd ++ '=' :: vd := by
      show (kd ++ ['=']) ++ vd = kd ++ '=' :: vd
      simp
    have hlen : kd.length ≠ 0 := by
      intro h0
      exact hk (congrArg String.mk (List.eq_nil_of_length_eq_zero h0))
    have hidx : idxOfEq (kd ++ '=' :: vd) = some kd.length :=
      idxOfEq_of_not_mem kd hmem vd
    have htake : (kd ++ '=' :: vd).take kd.length = kd := take_len_append kd ('=' :: vd)
    have hdrop : (kd ++ '=' :: vd).drop (kd.length + 1) = vd := by
      have h1 : kd ++ '=' :: vd = (kd ++ ['=']) ++ vd := by simp
      have h2 := drop_len_append (kd ++ ['=']) vd
      simp only [List.length_append, List.length_cons, List.length_nil] at h2
      rw [h1]
      exact h2
    simp only [parseLine, hdata, hidx, if_neg hlen, htake, hdrop]
  · intro hmem
    simp only [parseLine, idxOfEq_none line.data hmem]

/-- Witness for C7: a well-formed line (value containing a further `'='`),
a line without `'='`, and a line starting with `'='`. -/
theorem c7_witness :
    (("KEY" : String) ≠ "" ∧ ¬ ('=' ∈ ("KEY" : String).data) ∧
      parseLine "KEY=va=lue" = ("KEY", "va=lue")) ∧
    (¬ ('=' ∈ ("NO_EQUAL_SIGN" : String).data) ∧ parseLine "NO_EQUAL_SIGN" = ("", "")) ∧
    parseLine "=EMPTY_VALUE" = ("", "") := by
  refine ⟨⟨by decide, by decide, ?_⟩, ⟨by decide, ?_⟩, ?_⟩
  · exact (c7_parseLine_spec "KEY" "va=lue" "" []).1 (by decide) (by decide)
  · exact (c7_parseLine_spec "" "" "NO_EQUAL_SIGN" []).2.1 (by decide)
  · exact (c7_parseLine_spec "" "" "" ("EMPTY_VALUE" : String).data).2.2

/-! ### C4 — the Value Resolver's priority order -/

/-- C4: `getFieldValue` returns the first value found in priority order:
(1) the environment variable named exactly by the field's `env` tag when
the environment has such a variable (conjunct 1 — `v` may be the empty
string: a present-but-empty variable counts as found and short-circuits);
(2) else the variable named by the derived upper-snake-case name when
present (again, even when empty); (3) else the static `default` tag value.
An absent `env` tag is the empty tag name, which `lookupEnv` always reports
as unset, so lookup falls through exactly as the claim describes. -/
theorem c4_resolver_priority (envTag defTag fieldName : String) (env : Env) :
    (∀ v, lookupEnv env envTag = some v → getFieldValue envTag defTag fieldName env = v) ∧
    (lookupEnv env envTag = none →
      (∀ v, lookupEnv env (camelToSnake fieldName) = some v →
        getFieldValue envTag defTag fieldName env = v) ∧
      (lookupEnv env (camelToSnake fieldName) = none →
        getFieldValue envTag defTag fieldName env = defTag)) := by
  refine ⟨?_, fun h1 => ⟨?_, ?_⟩⟩
  · intro v hv
    simp [getFieldValue, hv]
  · intro v hv
    simp [getFieldValue, ‹lookupEnv env envTag = none›, hv]
  · intro h2
    simp [getFieldValue, ‹lookupEnv env envTag = none›, h2]

/-- Witness for C4: the override tag `FOO` is set to the empty string while
the derived name `BAR` is set to `"2"`; resolution yields `""` — the
present-but-empty override short-circuits both the derived name and the
default. -/
theorem c4_witness :
    lookupEnv
        (fun k => if k = "FOO" then some "" else if k = "BAR" then some "2" else none)
        "FOO" = some "" ∧
    getFieldValue "FOO" "dflt" "Bar"
        (fun k => if k = "FOO" then some "" else if k = "BAR" then some "2" else none)
      = "" :=
  ⟨rfl, (c4_resolver_priority "FOO" "dflt" "Bar"
    (fun k => if k = "FOO" then some "" else if k = "BAR" then some "2" else none)).1 "" rfl⟩

/-! ### C6 — missing values inside a nested invocation -/

/-- C6: in `parseTo`, every leaf (non-struct-kinded) field reached inside a
nested invocation (`pfx ≠ ""`) whose resolved value is the empty string
fails with `no value for field: <identifier>` naming that field (conjunct
1), and the walk aborts there: the enclosing field loop returns that error
at once, leaving the remaining fields' values untouched (conjunct 2). -/
theorem c6_nested_empty_value_fails (name envTag defTag pfx : String) (ty : GoType)
    (v : GoValue) (fs : FieldList) (vs : List GoValue) (env : Env)
    (hleaf : isStructTy ty = false) (hp : pfx ≠ "")
    (hval : getFieldValue envTag defTag (pfx ++ name) env = "") :
    parseToField (GoField.mk name envTag defTag ty) v pfx env
        = (v, some (GoErr.noValue name)) ∧
    parseToFields (FieldList.cons (GoField.mk name envTag defTag ty) fs) (v :: vs) pfx env
        = (v :: vs, some (GoErr.noValue name)) := by
  have hfield : parseToField (GoField.mk name envTag defTag ty) v pfx env
      = (v, some (GoErr.noValue name)) := by
    cases ty <;> simp_all [parseToField, isStructTy]
  exact ⟨hfield, by simp [parseToFields, hfield]⟩

/-- Witness for C6: the repository's own error scenario — a nested record
`Nested struct{ Value string }` walked with prefix `"Nested"` in an empty
environment and with no `default` tag yields `no value for field: Value`. -/
theorem c6_witness :
    isStructTy GoType.tString = false ∧
    ("Nested" : String) ≠ "" ∧
    getFieldValue "" "" ("Nested" ++ "Value") emptyEnv = "" ∧
    parseToField (GoField.mk "Value" "" "" GoType.tString) (GoValue.vString "") "Nested" emptyEnv
      = (GoValue.vString "", some (GoErr.noValue "Value")) :=
  ⟨rfl, by decide, rfl,
    (c6_nested_empty_value_fails "Value" "" "" "Nested" GoType.tString (GoValue.vString "")
      FieldList.nil [] emptyEnv rfl (by decide) rfl).1⟩

/-! ### C1 — signed-integer fields versus the duration case -/

/-- C1 (code evaluated at the failing input): the claim says `setFieldValue`
parses every signed-integer field, int64 included, as an integer and never
as a duration.  The switch dispatches on `reflect.Kind` and its first case
is `reflect.TypeOf(time.Duration(0)).Kind()`, which *is* `reflect.Int64`;
so an `int64` field takes the duration branch: `"123"` yields the
`"parsing duration"` error (conjunct 1) while the same string on an `int32`
field parses as the integer 123 (conjunct 2), and a duration string on an
`int64` field is parsed as a duration (conjunct 3; in the running program
the subsequent `reflect.Value.Set` of a `time.Duration` into an `int64`
field would panic).  The `case reflect.Int64` of the integer branch is
unreachable. -/
theorem c1_int64_field_takes_duration_branch :
    setFieldValue GoType.tInt64 "123"
        = Except.error (GoErr.parsingDuration "time: missing unit in duration \"123\"") ∧
    setFieldValue GoType.tInt32 "123" = Except.ok (GoValue.vInt 123) ∧
    setFieldValue GoType.tInt64 "5s" = Except.ok (GoValue.vDuration 5000000000) :=
  ⟨rfl, rfl, rfl⟩

/-! ### C2 — `Load` on a missing file -/

/-- C2 (code evaluated at the failing input): the claim says `Load` returns
success for a path naming no file.  The source suppresses the
`fs.ErrNotExist` from `os.Open` but then scans the nil `*os.File`, whose
first `Read` yields `os.ErrInvalid`; `buf.Err()` surfaces it and `Load`
returns `reading env file: invalid argument` — an error, with nothing
loaded. -/
theorem c2_missing_file_returns_read_error :
    LoadModel (fun _ => OpenResult.errNotExist) "/no/such/file.env" emptyEnv
      = (emptyEnv, some (GoErr.readErr "invalid argument")) :=
  rfl

/-! ### C3 — malformed lines in `Load` -/

/-- Counterexample to C3: a file whose only line has no `'='` (and one whose
only line starts with `'='`) makes `Load` return the `"setting"` error —
the malformed line is not ignored, contrary to the claim (no variable is
set, but an error is raised and the load aborts). -/
theorem c3_counterexample_malformed_line_errors :
    LoadModel (fun _ => OpenResult.ok ["NO_EQUAL_SIGN"]) ".env" emptyEnv
        = (emptyEnv, some (GoErr.settingErr "" "")) ∧
    LoadModel (fun _ => OpenResult.ok ["=EMPTY_VALUE"]) ".env" emptyEnv
        = (emptyEnv, some (GoErr.settingErr "" "")) :=
  ⟨rfl, rfl⟩

/-- An empty parsed key forces the whole `parseLine` result to `("", "")`:
a non-zero first `'='` index always yields a non-empty key. -/
theorem parseLine_key_empty (l : String) (h : (parseLine l).1 = "") :
    parseLine l = ("", "") := by
  rcases hidx : idxOfEq l.data with _ | i
  · simp [parseLine, hidx]
  · by_cases hi : i = 0
    · simp [parseLine, hidx, hi]
    · exfalso
      simp only [parseLine, hidx, if_neg hi] at h
      have hdat := congrArg String.data h
      cases hd : l.data with
      | nil => rw [hd] at hidx; simp [idxOfEq] at hidx
      | cons c cs =>
        cases i with
        | zero => exact hi rfl
        | succ n =>
          rw [hd] at hdat
          simp [List.take] at hdat

/-- C3 amended: a non-empty malformed line (no `'='`, or `'='` first) is
*not* ignored: it parses to the empty key, `Load` calls `os.Setenv` with
that empty key, which fails, and the load aborts with the wrapped
`"setting"` error, setting no variable for that line (conjunct 1); only
blank lines are skipped outright (conjunct 2). -/
theorem c3_amended_malformed_line_aborts (line : String) (rest : List String) (env : Env)
    (hne : line ≠ "") (hkey : (parseLine line).1 = "") :
    loadEnvLines (line :: rest) env = (env, some (GoErr.settingErr "" "")) ∧
    (∀ ls : List String, loadEnvLines ("" :: ls) env = loadEnvLines ls env) := by
  have hpl : parseLine line = ("", "") := parseLine_key_empty line hkey
  constructor
  · simp [loadEnvLines, hne, hpl, setenvOk]
  · intro ls
    simp [loadEnvLines]

/-- Witness for the amended C3: the concrete malformed line `"NOEQ"`. -/
theorem c3_amended_witness :
    ("NOEQ" : String) ≠ "" ∧ (parseLine "NOEQ").1 = "" ∧
    loadEnvLines ["NOEQ", "A=1"] emptyEnv = (emptyEnv, some (GoErr.settingErr "" "")) :=
  ⟨by decide, by decide,
    (c3_amended_malformed_line_aborts "NOEQ" ["A=1"] emptyEnv (by decide) (by decide)).1⟩

/-! ### C5 — consecutive uppercase letters in `camelToSnake` -/

/-- Counterexample to C5: the claim says the scan starts a new segment only
at a *transition into* uppercase, so the run `DB` in `DBPort` would stay in
one segment (`DB_PORT`, or `DBPORT` if no transition is ever deemed to
occur inside `DBPort`).  The code instead breaks at *every* uppercase
letter at non-zero index: `camelToSnake "DBPort" = "D_B_PORT"`. -/
theorem c5_counterexample_consecutive_uppercase :
    camelToSnake "DBPort" = "D_B_PORT" ∧
    camelToSnake "DBPort" ≠ "DB_PORT" ∧
    camelToSnake "DBPort" ≠ "DBPORT" :=
  ⟨rfl, by decide, by decide⟩

theorem splitUpper_ne_nil (cs : List Char) : ∀ (i : Nat) (acc : List Char),
    splitUpper i acc cs ≠ [] := by
  induction cs with
  | nil => intro i acc; simp [splitUpper]
  | cons c t ih =>
    intro i acc
    simp only [splitUpper]
    split
    · simp
    · exact ih (i + 1) (c :: acc)

theorem splitUpper_pos (cs : List Char) : ∀ (i j : Nat) (acc : List Char),
    i ≠ 0 → j ≠ 0 → splitUpper i acc cs = splitUpper j acc cs := by
  induction cs with
  | nil => intro i j acc _ _; rfl
  | cons c t ih =>
    intro i j acc hi hj
    have hd : (isUpperA c && decide (i ≠ 0)) = (isUpperA c && decide (j ≠ 0)) := by
      rw [decide_eq_true hi, decide_eq_true hj]
    simp only [splitUpper, hd]
    split
    · rw [ih (i + 1) (j + 1) [c] (Nat.succ_ne_zero i) (Nat.succ_ne_zero j)]
    · exact ih (i + 1) (j + 1) (c :: acc) (Nat.succ_ne_zero i) (Nat.succ_ne_zero j)

/-- C5 amended: `camelToSnake` starts a new segment at *every* uppercase
letter at a non-zero index — also in the middle of an uppercase run — so a
leading character is always split off before a following uppercase letter:
`camelToSnake (a :: b :: t) = toUpper a ++ "_" ++ camelToSnake (b :: t)`
whenever `b` is uppercase.  Consecutive uppercase letters therefore land in
single-letter segments (`DBPort` → `D_B_PORT`), not in one shared segment. -/
theorem c5_amended_every_uppercase_breaks (a b : Char) (t : List Char)
    (hb : isUpperA b = true) :
    camelToSnake (String.mk (a :: b :: t))
      = String.mk (toUpperA a :: '_' :: (camelToSnake (String.mk (b :: t))).data) := by
  have h0 : splitUpper 0 [] (a :: b :: t) = [a] :: splitUpper 2 [b] t := by
    simp [splitUpper, hb]
  have h0' : splitUpper 0 [] (b :: t) = splitUpper 1 [b] t := by
    simp [splitUpper]
  have h12 : splitUpper 2 [b] t = splitUpper 1 [b] t :=
    splitUpper_pos t 2 1 [b] (by decide) (by decide)
  show String.mk (camelToSnakeL (a :: b :: t)) = _
  rw [camelToSnakeL, h0, h12]
  apply congrArg String.mk
  have hRHS : (camelToSnake (String.mk (b :: t))).data
      = joinParts ((splitUpper 1 [b] t).map (List.map toUpperA)) := by
    show camelToSnakeL (b :: t) = _
    rw [camelToSnakeL, h0']
  rw [hRHS, List.map_cons]
  rcases hS : (splitUpper 1 [b] t).map (List.map toUpperA) with _ | ⟨p, ps⟩
  · exact absurd (List.map_eq_nil_iff.mp hS) (splitUpper_ne_nil t 1 [b])
  · simp [joinParts]

/-- Witness for the amended C5: `'B'` is uppercase and `DBPort` splits as
`D_` before `camelToSnake "BPort"`. -/
theorem c5_amended_witness :
    isUpperA 'B' = true ∧
    camelToSnake (String.mk ('D' :: 'B' :: ("Port" : String).data))
      = String.mk (toUpperA 'D' :: '_'
          :: (camelToSnake (String.mk ('B' :: ("Port" : String).data))).data) :=
  ⟨rfl, c5_amended_every_uppercase_breaks 'D' 'B' ("Port" : String).data rfl⟩

/-! ### C8 — a conversion failure leaves the record partially populated -/

/-- C8: when the walk of a record's fields reaches a failing field — all
fields before it succeed (`h1`), the field itself fails with error `e`
(`h2`, where `v'` is the failing field's value after the attempt: for a
leaf conversion failure the field is untouched, `v' = v`) — the loop
returns that error immediately: the fields before the failing one keep
their newly assigned values, the failing field contributes `v'`, and every
field after it keeps its old value, none being retried. -/
theorem c8_failure_partial_population (fs1 : FieldList) (f : GoField) (fs2 : FieldList)
    (vs1 : List GoValue) (v v' : GoValue) (vs2 : List GoValue) (pfx : String) (env : Env)
    (e : GoErr)
    (hlen : flLength fs1 = vs1.length)
    (h1 : (parseToFields fs1 vs1 pfx env).2 = none)
    (h2 : parseToField f v pfx env = (v', some e)) :
    parseToFields (FieldList.app fs1 (FieldList.cons f fs2)) (vs1 ++ v :: vs2) pfx env
      = ((parseToFields fs1 vs1 pfx env).1 ++ v' :: vs2, some e) := by
  induction vs1 generalizing fs1 with
  | nil =>
    cases fs1 with
    | nil => simp [parseToFields, FieldList.app, h2]
    | cons g gs => simp [flLength] at hlen
  | cons w ws ih =>
    cases fs1 with
    | nil => simp [flLength] at hlen
    | cons g gs =>
      have hlen' : flLength gs = ws.length := by
        simpa [flLength] using hlen
      rcases hgw : parseToField g w pfx env with ⟨w', r⟩
      cases r with
      | some e1 =>
        exfalso
        rw [parseToFields_cons_err g gs w w' ws pfx env e1 hgw] at h1
        exact Option.noConfusion h1
      | none =>
        have h1' : (parseToFields gs ws pfx env).2 = none := by
          rw [parseToFields_cons_ok g gs w w' ws pfx env hgw] at h1
          exact h1
        have happ : FieldList.app (FieldList.cons g gs) (FieldList.cons f fs2)
            = FieldList.cons g (FieldList.app gs (FieldList.cons f fs2)) := rfl
        rw [happ, List.cons_append,
          parseToFields_cons_ok g (FieldList.app gs (FieldList.cons f fs2)) w w'
            (ws ++ v :: vs2) pfx env hgw,
          ih gs hlen' h1',
          parseToFields_cons_ok g gs w w' ws pfx env hgw]
        simp

/-- Witness for C8: the record `Home string; Empty int; Tail string` with
`HOME=/home/test` and `EMPTY=invalid` — `Home` has already been assigned
when `Empty`'s conversion fails, and `Tail` stays untouched. -/
theorem c8_witness :
    flLength (FieldList.cons (GoField.mk "Home" "" "" GoType.tString) FieldList.nil)
        = ([GoValue.vString ""] : List GoValue).length ∧
    (parseToFields (FieldList.cons (GoField.mk "Home" "" "" GoType.tString) FieldList.nil)
        [GoValue.vString ""] ""
        (fun k => if k = "HOME" then some "/home/test"
                  else if k = "EMPTY" then some "invalid" else none)).2 = none ∧
    parseToField (GoField.mk "Empty" "" "" GoType.tInt) (GoValue.vInt 0) ""
        (fun k => if k = "HOME" then some "/home/test"
                  else if k = "EMPTY" then some "invalid" else none)
      = (GoValue.vInt 0,
          some (GoErr.parsingInteger "strconv.ParseInt: parsing \"invalid\": invalid syntax")) ∧
    parseToFields
        (FieldList.app (FieldList.cons (GoField.mk "Home" "" "" GoType.tString) FieldList.nil)
          (FieldList.cons (GoField.mk "Empty" "" "" GoType.tInt)
            (FieldList.cons (GoField.mk "Tail" "" "" GoType.tString) FieldList.nil)))
        ([GoValue.vString ""] ++ GoValue.vInt 0 :: [GoValue.vString "old"]) ""
        (fun k => if k = "HOME" then some "/home/test"
                  else if k = "EMPTY" then some "invalid" else none)
      = ([GoValue.vString "/home/test"] ++ GoValue.vInt 0 :: [GoValue.vString "old"],
          some (GoErr.parsingInteger "strconv.ParseInt: parsing \"invalid\": invalid syntax")) := by
  refine ⟨rfl, rfl, rfl, ?_⟩
  exact c8_failure_partial_population
    (FieldList.cons (GoField.mk "Home" "" "" GoType.tString) FieldList.nil)
    (GoField.mk "Empty" "" "" GoType.tInt)
    (FieldList.cons (GoField.mk "Tail" "" "" GoType.tString) FieldList.nil)
    [GoValue.vString ""] (GoValue.vInt 0) (GoValue.vInt 0) [GoValue.vString "old"] ""
    (fun k => if k = "HOME" then some "/home/test"
              else if k = "EMPTY" then some "invalid" else none)
    (GoErr.parsingInteger "strconv.ParseInt: parsing \"invalid\": invalid syntax")
    rfl rfl rfl

/-! ### C9 — loading the same file twice -/

theorem loadEnvLines_fst (ls : List String) (env : Env) :
    (loadEnvLines ls env).1 = applyPairs (lineUpdates ls) env := by
  induction ls generalizing env with
  | nil => rfl
  | cons l t ih =>
    by_cases hl : l = ""
    · simp [loadEnvLines, lineUpdates, hl, ih]
    · by_cases hs : setenvOk (parseLine l).1 (parseLine l).2
      · simp [loadEnvLines, lineUpdates, hl, hs, applyPairs, ih]
      · simp [loadEnvLines, lineUpdates, hl, hs, applyPairs]

theorem applyPairs_apply (ps : List (String × String)) (env : Env) (key : String) :
    applyPairs ps env key
      = match findLastPair ps key with
        | some w => some w
        | none => env key := by
  induction ps generalizing env with
  | nil => rfl
  | cons p t ih =>
    rw [applyPairs, ih, findLastPair]
    rcases findLastPair t key with _ | w
    · by_cases hk : key = p.1 <;> simp [envSet, hk]
    · rfl

theorem applyPairs_idem (ps : List (String × String)) (env : Env) :
    applyPairs ps (applyPairs ps env) = applyPairs ps env := by
  funext key
  rw [applyPairs_apply, applyPairs_apply]
  rcases findLastPair ps key with _ | w <;> rfl

/-- C9: loading the same environment file twice yields exactly the same
final process-environment state as loading it once — whatever the file's
content (including files whose load aborts partway, which apply the same
prefix of pairs both times) and whatever the open outcome (a missing file
or a failing open leaves the environment unchanged both times). -/
theorem c9_load_idempotent (fs : FileSys) (pth : String) (env : Env) :
    (LoadModel fs pth (LoadModel fs pth env).1).1 = (LoadModel fs pth env).1 := by
  rcases hf : fs pth with lines | _ | msg
  · simp only [LoadModel, hf]
    rw [loadEnvLines_fst, loadEnvLines_fst]
    exact applyPairs_idem (lineUpdates lines) env
  · simp [LoadModel, hf]
  · simp [LoadModel, hf]

/-! ### C10 — empty resolved values at the top level -/

/-- Counterexample to C10: the claim says every integer field whose
resolved value is empty fails with "the corresponding typed parse error"
(for an integer field, the `"parsing integer"` error).  An `int64` field
with the empty resolved value instead fails with the duration error — its
kind is `reflect.Int64`, which the duration case of `setFieldValue`
captures first. -/
theorem c10_counterexample_int64_empty_is_duration_error :
    parseToField (GoField.mk "Num" "" "" GoType.tInt64) (GoValue.vInt 0) "" emptyEnv
        = (GoValue.vInt 0, some (GoErr.parsingDuration "time: invalid duration \"\"")) ∧
    isIntegerParseErr
        (parseToField (GoField.mk "Num" "" "" GoType.tInt64) (GoValue.vInt 0) "" emptyEnv).2
      = false :=
  ⟨rfl, rfl⟩

/-- A top-level (`pfx = ""`) leaf field is never reported missing: the
resolved value, empty or not, goes straight to the converter. -/
theorem parseToField_top_level (name envTag defTag : String) (ty : GoType) (v : GoValue)
    (env : Env) (hleaf : isStructTy ty = false) :
    parseToField (GoField.mk name envTag defTag ty) v "" env
      = match setFieldValue ty (getFieldValue envTag defTag ("" ++ name) env) with
        | Except.error e => (v, some e)
        | Except.ok w => (w, none) := by
  cases ty <;> simp_all [parseToField, isStructTy]

/-- C10 amended: at the top level (empty prefix) a leaf field whose
resolved value is the empty string is not reported as a missing-value
error: the empty string goes to the converter (conjunct 1).  A string field
is silently set to the empty string; `int`, `int8`, `int16`, `int32`
fields fail with the `"parsing integer"` error, unsigned fields with
`"parsing unsigned integer"`, float fields with `"parsing float"`, bool
fields with `"parsing bool"`, and a duration field with `"parsing
duration"` — but an `int64` field, whose kind is indistinguishable from
`time.Duration`'s, also fails with the duration error rather than the
integer one (remaining conjuncts). -/
theorem c10_amended_top_level_empty (name envTag defTag : String) (ty : GoType)
    (v : GoValue) (env : Env)
    (hleaf : isStructTy ty = false)
    (hval : getFieldValue envTag defTag name env = "") :
    parseToField (GoField.mk name envTag defTag ty) v "" env
        = (match setFieldValue ty "" with
           | Except.error e => (v, some e)
           | Except.ok w => (w, none)) ∧
    setFieldValue GoType.tString "" = Except.ok (GoValue.vString "") ∧
    setFieldValue GoType.tInt ""
      = Except.error (GoErr.parsingInteger "strconv.ParseInt: parsing \"\": invalid syntax") ∧
    setFieldValue GoType.tInt8 ""
      = Except.error (GoErr.parsingInteger "strconv.ParseInt: parsing \"\": invalid syntax") ∧
    setFieldValue GoType.tInt16 ""
      = Except.error (GoErr.parsingInteger "strconv.ParseInt: parsing \"\": invalid syntax") ∧
    setFieldValue GoType.tInt32 ""
      = Except.error (GoErr.parsingInteger "strconv.ParseInt: parsing \"\": invalid syntax") ∧
    setFieldValue GoType.tUint ""
      = Except.error (GoErr.parsingUnsigned "strconv.ParseUint: parsing \"\": invalid syntax") ∧
    setFieldValue GoType.tUint8 ""
      = Except.error (GoErr.parsingUnsigned "strconv.ParseUint: parsing \"\": invalid syntax") ∧
    setFieldValue GoType.tUint16 ""
      = Except.error (GoErr.parsingUnsigned "strconv.ParseUint: parsing \"\": invalid syntax") ∧
    setFieldValue GoType.tUint32 ""
      = Except.error (GoErr.parsingUnsigned "strconv.ParseUint: parsing \"\": invalid syntax") ∧
    setFieldValue GoType.tUint64 ""
      = Except.error (GoErr.parsingUnsigned "strconv.ParseUint: parsing \"\": invalid syntax") ∧
    setFieldValue GoType.tFloat32 ""
      = Except.error (GoErr.parsingFloat "strconv.ParseFloat: parsing \"\": invalid syntax") ∧
    setFieldValue GoType.tFloat64 ""
      = Except.error (GoErr.parsingFloat "strconv.ParseFloat: parsing \"\": invalid syntax") ∧
    setFieldValue GoType.tBool ""
      = Except.error (GoErr.parsingBool "strconv.ParseBool: parsing \"\": invalid syntax") ∧
    setFieldValue GoType.tDuration ""
      = Except.error (GoErr.parsingDuration "time: invalid duration \"\"") ∧
    setFieldValue GoType.tInt64 ""
      = Except.error (GoErr.parsingDuration "time: invalid duration \"\"") := by
  refine ⟨?_, rfl, rfl, rfl, rfl, rfl, rfl, rfl, rfl, rfl, rfl, rfl, rfl, rfl, rfl, rfl⟩
  have hns : ("" : String) ++ name = name := by
    obtain ⟨d⟩ := name
    show String.mk ([] ++ d) = String.mk d
    rw [List.nil_append]
  have h := parseToField_top_level name envTag defTag ty v env hleaf
  rw [hns, hval] at h
  exact h

/-- Witness for the amended C10: a top-level string field with no
environment variable and no default is silently set to the empty string
(no missing-value error). -/
theorem c10_witness :
    isStructTy GoType.tString = false ∧
    getFieldValue "" "" "Home" emptyEnv = "" ∧
    parseToField (GoField.mk "Home" "" "" GoType.tString) (GoValue.vString "old") "" emptyEnv
      = (GoValue.vString "", none) := by
  refine ⟨rfl, rfl, ?_⟩
  exact (c10_amended_top_level_empty "Home" "" "" GoType.tString (GoValue.vString "old")
    emptyEnv rfl rfl).1


